import Mathlib

/-!
Verification of the feedback analysis pipeline (src/lib/analysis-engine.ts,
the full variant exporting analyzeUserFeedback with semantic clustering).

The TypeScript source is shallowly embedded: every pipeline stage is a pure
Lean function operating on String / List Char / Nat / Int / Rat.  String
operations from the JS runtime (toLowerCase, trim, split, includes, endsWith,
substring) are implemented structurally on the character list so that all
definitions reduce in the kernel.  JS floating point appears only in
(a) the similarity score overlap / min, embedded as an exact rational, and
(b) the threshold comparison score >= t, embedded as an equivalent
cross-multiplied natural-number comparison (lemma simGE_correct below proves
the equivalence with the rational comparison); for the ratios of small
integers arising here the float and exact comparisons agree.
JS Array.prototype.sort with a consistent comparator is a stable sort; it is
embedded as a structural stable insertion sort on a descending Nat key
(sortByKeyDesc), which produces the unique stable descending order.
-/

/-- JS String.prototype.includes: is the pattern a contiguous substring.
Checks whether the pattern list is a prefix of the text list. -/
def subAt : List Char → List Char → Bool
  | [], _ => true
  | _ :: _, [] => false
  | p :: ps, c :: cs => p == c && subAt ps cs

/-- Substring occurrence anywhere in the text (hay first, needle second),
mirroring hay.includes(needle). -/
def hasSub : List Char → List Char → Bool
  | hay, needle =>
    subAt needle hay ||
      (match hay with
       | [] => false
       | _ :: hs => hasSub hs needle)

/-- hay.includes(needle) on strings. -/
def jsIncludes (hay needle : String) : Bool :=
  hasSub hay.data needle.data

/-- JS toLowerCase (ASCII range, as the source is ASCII-oriented). -/
def lowerStr (s : String) : String :=
  ⟨s.data.map Char.toLower⟩

/-- JS String.prototype.trim: strip leading and trailing whitespace. -/
def trimStr (s : String) : String :=
  ⟨((s.data.dropWhile Char.isWhitespace).reverse.dropWhile Char.isWhitespace).reverse⟩

/-- First n characters, s.substring(0, n). -/
def strTake (s : String) (n : Nat) : String :=
  ⟨s.data.take n⟩

/-- Remove the last n characters. -/
def strDropRight (s : String) (n : Nat) : String :=
  ⟨s.data.take (s.data.length - n)⟩

/-- Does the string end with the given suffix (regex /suf$/ test). -/
def endsWithStr (s suf : String) : Bool :=
  if suf.data.length ≤ s.data.length then
    s.data.drop (s.data.length - suf.data.length) == suf.data
  else false

/-- Array.prototype.join(sep). -/
def joinSep (sep : String) : List String → String
  | [] => ""
  | [x] => x
  | x :: xs => x ++ sep ++ joinSep sep xs

/-- Decimal digit character. -/
def digitChar (n : Nat) : Char :=
  Char.ofNat (48 + n)

/-- Decimal representation, fuel-based so that it reduces in the kernel. -/
def natToStrAux : Nat → Nat → List Char
  | 0, _ => []
  | fuel + 1, n => if n < 10 then [digitChar n] else natToStrAux fuel (n / 10) ++ [digitChar (n % 10)]

/-- JS template interpolation of a natural number. -/
def natToStr (n : Nat) : String :=
  ⟨natToStrAux (n + 1) n⟩

/-- JS template interpolation of an integer. -/
def intToStr (i : Int) : String :=
  if i < 0 then "-" ++ natToStr i.natAbs else natToStr i.natAbs

/-- JS falsy-string fallback: s || d. -/
def jsOrElse (s d : String) : String :=
  if s = "" then d else s

/-- Splits on maximal runs of delimiter characters, the semantics of
JS text.split(/[cc]+/): a run of one or more delimiters is a single
separator, a leading or trailing delimiter run yields an empty fragment.
The accumulator is some acc while inside a fragment and none while
consuming a delimiter run. -/
def splitRunsAux (p : Char → Bool) : List Char → Option (List Char) → List (List Char)
  | [], none => [[]]
  | [], some acc => [acc.reverse]
  | c :: cs, none =>
    if p c then splitRunsAux p cs none else splitRunsAux p cs (some [c])
  | c :: cs, some acc =>
    if p c then acc.reverse :: splitRunsAux p cs none else splitRunsAux p cs (some (c :: acc))

/-- text.split(/[delims]+/) as a list of strings. -/
def splitRuns (p : Char → Bool) (s : String) : List String :=
  (splitRunsAux p s.data (some [])).map (fun cs => ⟨cs⟩)

/-- Sentence delimiter class [.!?\n] of the segmenter. -/
def isSentenceDelim (c : Char) : Bool :=
  c == '.' || c == '!' || c == '?' || c == '\n'

/-- extractSentences: split on runs of . ! ? or newline, trim every
candidate, keep only candidates longer than 10 characters. -/
def extractSentences (text : String) : List String :=
  ((splitRuns isSentenceDelim text).map trimStr).filter (fun s => 10 < s.length)

/-- One step word.replace(/suf$/, ""): strip the suffix when present. -/
def stripEnd (suf w : String) : String :=
  if endsWithStr w suf then strDropRight w suf.length else w

/-- normalizeToken: the chained replace calls of the source, in source
order ing, tion, ment, ness, able, ful, less, ous, ive, ly, ed, er, es, s.
Each replace acts on the result of the previous one. -/
def normalizeToken (w : String) : String :=
  stripEnd "s" (stripEnd "es" (stripEnd "er" (stripEnd "ed" (stripEnd "ly"
    (stripEnd "ive" (stripEnd "ous" (stripEnd "less" (stripEnd "ful"
      (stripEnd "able" (stripEnd "ness" (stripEnd "ment" (stripEnd "tion"
        (stripEnd "ing" w)))))))))))))

/-- The suffix priority order of the normalizer. -/
def suffixOrder : List String :=
  ["ing", "tion", "ment", "ness", "able", "ful", "less", "ous", "ive", "ly", "ed", "er", "es", "s"]

/-- Modelled from the spec: strip (first match wins, non-overlapping) one
trailing suffix in the priority order, leaving the result untouched
afterwards.  This is the behaviour the spec ascribes to the normalizer and
is compared against normalizeToken, the embedding of the source. -/
def specNormalizeToken (w : String) : String :=
  match suffixOrder.find? (fun suf => endsWithStr w suf) with
  | some suf => strDropRight w suf.length
  | none => w

/-- getTokens: lowercase, delete every character outside [a-z0-9\s],
split on whitespace runs, keep fragments longer than 2 characters. -/
def getTokens (text : String) : List String :=
  (splitRuns Char.isWhitespace
      ⟨(lowerStr text).data.filter (fun c => c.isLower || c.isDigit || c.isWhitespace)⟩).filter
    (fun w => 2 < w.length)

/-- The set of normalized root forms of a sentence (JS Set collapses
duplicates). -/
def tokenSet (s : String) : Finset String :=
  ((getTokens s).map normalizeToken).toFinset

/-- semanticSimilarity: 0 when either token set is empty, otherwise
|intersection| / min(|A|, |B|), as an exact rational. -/
def semanticSimilarity (a b : String) : ℚ :=
  let A := tokenSet a
  let B := tokenSet b
  if A.card = 0 ∨ B.card = 0 then 0
  else ((A ∩ B).card : ℚ) / (min A.card B.card : ℚ)

/-- Decides semanticSimilarity x y >= θn/θd without rational division
(kernel-reducible); simGE_correct proves it equivalent. -/
def simGE (θn θd : Nat) (x y : String) : Bool :=
  let A := tokenSet x
  let B := tokenSet y
  if A.card = 0 ∨ B.card = 0 then decide (θn = 0)
  else decide (θn * min A.card B.card ≤ θd * (A ∩ B).card)

/-- clusterSentences inner loop: the head of the remaining list seeds a new
cluster and absorbs every later unassigned sentence whose similarity to the
seed reaches the threshold; the rest is processed recursively.  Fuel makes
the recursion structural; fuel = length of the list always suffices. -/
def clusterAux (θn θd : Nat) : Nat → List String → List (List String)
  | _, [] => []
  | 0, _ :: _ => []
  | fuel + 1, s :: rest =>
    (s :: rest.filter (fun t => simGE θn θd s t)) ::
      clusterAux θn θd fuel (rest.filter (fun t => !simGE θn θd s t))

/-- clusterSentences(sentences, θn/θd): greedy single-pass seed clustering
of the source (threshold 0.35 = 35/100 at the main call site, 0.25 = 25/100
in the pain-point fallback). -/
def clusterSentences (θn θd : Nat) (sentences : List String) : List (List String) :=
  clusterAux θn θd sentences.length sentences

/-- Sentence-level sentiment polarity. -/
inductive Sentiment
  | positive
  | negative
  | neutral
deriving DecidableEq

/-- Severity / priority tier ("high" | "medium" | "low"). -/
inductive Severity
  | high
  | medium
  | low
deriving DecidableEq

/-- Numeric rank of a tier, the sevOrder table of the final pain sort. -/
def sevRank : Severity → Nat
  | Severity.high => 3
  | Severity.medium => 2
  | Severity.low => 1

structure PainPoint where
  issue : String
  frequency : String
  severity : Severity
  quotes : List String
deriving DecidableEq

structure EmotionalPattern where
  emotion : String
  intensity : String
  trigger : String
  sentiment : Sentiment
deriving DecidableEq

structure BehavioralTheme where
  theme : String
  description : String
  user_segment : String
deriving DecidableEq

structure CognitiveBias where
  bias : String
  evidence : String
  impact : String
deriving DecidableEq

structure Persona where
  name : String
  role : String
  goals : List String
  frustrations : List String
  quote : String
deriving DecidableEq

structure Recommendation where
  priority : Severity
  category : String
  action : String
  expected_impact : String
deriving DecidableEq

/-- The Report shape returned by analyzeUserFeedback. -/
structure AnalysisResult where
  pain_points : List PainPoint
  emotional_patterns : List EmotionalPattern
  behavioral_themes : List BehavioralTheme
  cognitive_biases : List CognitiveBias
  personas : List Persona
  recommendations : List Recommendation
  executive_summary : String
deriving DecidableEq

/-- Negative signal phrases of inferSentiment. -/
def negativeSignals : List String :=
  ["but", "however", "although", "unfortunately", "wish", "if only", "struggle", "hard",
   "difficult", "problem", "issue", "can't", "cannot", "won't", "shouldn't", "bad", "worse",
   "worst", "lack", "poor", "no way", "not good", "not great", "could be better", "needs work",
   "too much", "too many", "not enough"]

/-- Positive signal phrases of inferSentiment. -/
def positiveSignals : List String :=
  ["thank", "appreciate", "glad", "happy", "enjoy", "pleased", "excellent", "wonderful",
   "fantastic", "good job", "well done", "perfect", "works well", "impressed", "helpful",
   "nice", "solid", "clean", "fast", "quick"]

/-- inferSentiment: majority vote of substring hits of the signal lists in
the lowercased sentence. -/
def inferSentiment (sentence : String) : Sentiment :=
  let lower := lowerStr sentence
  let negScore := (negativeSignals.filter (fun s => jsIncludes lower s)).length
  let posScore := (positiveSignals.filter (fun s => jsIncludes lower s)).length
  if posScore < negScore then Sentiment.negative
  else if negScore < posScore then Sentiment.positive
  else Sentiment.neutral

structure PainEntry where
  keywords : List String
  issue : String
deriving DecidableEq

/-- PAIN_KEYWORDS taxonomy table. -/
def PAIN_KEYWORDS : List PainEntry :=
  [⟨["slow", "loading", "wait", "lag", "performance", "takes forever", "too long", "speed"],
    "Performance & Speed Issues"⟩,
   ⟨["confus", "unclear", "hard to find", "lost", "where", "navigate", "find", "hidden", "buried"],
    "Navigation & Discoverability"⟩,
   ⟨["bug", "crash", "error", "broken", "doesn't work", "fail", "glitch", "freeze", "stuck", "hang"],
    "Reliability & Bugs"⟩,
   ⟨["price", "expensive", "cost", "pay", "subscription", "billing", "charge", "fee", "worth"],
    "Pricing Concerns"⟩,
   ⟨["support", "help", "response", "contact", "ticket", "resolve", "agent", "wait time", "reply"],
    "Customer Support Quality"⟩,
   ⟨["design", "ugly", "outdated", "look", "ui", "interface", "layout", "visual", "aesthetic", "cluttered"],
    "UI/UX Design Quality"⟩,
   ⟨["feature", "missing", "need", "wish", "want", "should", "add", "include", "implement", "request"],
    "Missing Features"⟩,
   ⟨["mobile", "phone", "app", "responsive", "tablet", "small screen", "touch"],
    "Mobile Experience"⟩,
   ⟨["security", "privacy", "data", "breach", "hack", "protect", "encrypt", "password"],
    "Security & Privacy Concerns"⟩,
   ⟨["document", "docs", "tutorial", "guide", "learn", "how to", "instruction", "manual"],
    "Documentation & Learning Resources"⟩,
   ⟨["integrat", "connect", "api", "plugin", "extension", "third-party", "sync", "import", "export"],
    "Integration & Compatibility"⟩]

structure EmotionEntry where
  keywords : List String
  emotion : String
  sentiment : Sentiment
deriving DecidableEq

/-- EMOTION_KEYWORDS taxonomy table. -/
def EMOTION_KEYWORDS : List EmotionEntry :=
  [⟨["frustrat", "annoyed", "angry", "hate", "terrible", "fed up", "sick of", "ridiculous"],
    "Frustration", Sentiment.negative⟩,
   ⟨["confus", "unclear", "don't understand", "complicated", "complex", "overwhelming", "lost"],
    "Confusion", Sentiment.negative⟩,
   ⟨["love", "great", "amazing", "awesome", "best", "fantastic", "wonderful", "excellent"],
    "Delight", Sentiment.positive⟩,
   ⟨["trust", "reliable", "secure", "safe", "depend", "confident", "consistent"],
    "Trust", Sentiment.positive⟩,
   ⟨["disappoint", "expected", "letdown", "underwhelm", "let down", "fell short"],
    "Disappointment", Sentiment.negative⟩,
   ⟨["easy", "simple", "intuitive", "smooth", "seamless", "effortless", "straightforward"],
    "Satisfaction", Sentiment.positive⟩,
   ⟨["anxious", "worried", "concern", "nervous", "afraid", "scary", "uncertain"],
    "Anxiety", Sentiment.negative⟩,
   ⟨["excit", "eager", "look forward", "can't wait", "thrilled", "pumped"],
    "Excitement", Sentiment.positive⟩]

structure BiasEntry where
  keywords : List String
  bias : String
  impact : String
deriving DecidableEq

/-- BIAS_PATTERNS taxonomy table. -/
def BIAS_PATTERNS : List BiasEntry :=
  [⟨["always", "never", "every time", "constantly", "without fail"],
    "Frequency Illusion", "Users may overstate issue frequency"⟩,
   ⟨["used to", "before", "old version", "previous", "back when", "the way it was"],
    "Status Quo Bias", "Resistance to change may skew feedback"⟩,
   ⟨["everyone", "nobody", "all users", "we all", "most people", "no one"],
    "False Consensus Effect", "Individual opinions projected as group sentiment"⟩,
   ⟨["first time", "initial", "when i started", "first impression", "right away"],
    "Primacy Effect", "First impressions disproportionately shape perception"⟩,
   ⟨["just now", "recently", "last time", "today", "this week", "latest"],
    "Recency Bias", "Recent experiences weighted more heavily"⟩,
   ⟨["compared to", "unlike", "better than", "worse than", "competitor", "alternative"],
    "Anchoring Bias", "Comparisons to competitors anchor expectations"⟩]

/-- JS regex word character class \w = [A-Za-z0-9_]. -/
def isWordChar (c : Char) : Bool :=
  c.isAlphanum || c == '_'

/-- Does the pattern match at the current position with a word boundary
after it: the pattern is a literal prefix of the text here and the
following character (if any) is not a word character. -/
def wordHitAt : List Char → List Char → Bool
  | [], [] => true
  | [], c :: _ => !isWordChar c
  | _ :: _, [] => false
  | p :: ps, c :: cs => p == c && wordHitAt ps cs

/-- Scan for a \b pat \b occurrence: some position where the preceding
character (if any) is not a word character and wordHitAt succeeds.  All
patterns used in the source start and end with a letter, for which this is
exactly the /\b(...)\b/ semantics. -/
def wordHitFrom (pat : List Char) : Option Char → List Char → Bool
  | prev, hay =>
    ((match prev with
      | none => true
      | some c => !isWordChar c) && wordHitAt pat hay)
      ||
      (match hay with
       | [] => false
       | c :: cs => wordHitFrom pat (some c) cs)

/-- /\b(alt1|alt2|...)\b/i.test(s): case-insensitive word-bounded
alternation test. -/
def testWordAlts (alts : List String) (s : String) : Bool :=
  alts.any (fun a => wordHitFrom a.data none (lowerStr s).data)

structure ImplicitThemeEntry where
  alts : List String
  theme : String
  description : String
  user_segment : String
deriving DecidableEq

/-- IMPLICIT_THEME_PATTERNS: each single regex /\b(...)\b/i is recorded by
its alternative literals. -/
def IMPLICIT_THEME_PATTERNS : List ImplicitThemeEntry :=
  [⟨["quick", "fast", "hurry", "rush", "time", "efficient", "productive"],
    "Efficiency Seeking", "Users prioritize speed and streamlined workflows", "Productivity-Focused Users"⟩,
   ⟨["try", "test", "experiment", "explore", "discover", "check out", "play with"],
    "Feature Exploration", "Users actively discover and evaluate capabilities", "Exploratory Users"⟩,
   ⟨["reliable", "stable", "consistent", "depend", "count on", "trust"],
    "Reliability Dependence", "Users need predictable, stable experiences", "Mission-Critical Users"⟩,
   ⟨["automat", "workflow", "repeat", "batch", "routine", "template", "preset"],
    "Automation Desire", "Users seek to reduce repetitive manual work", "Power Users"⟩,
   ⟨["compare", "switch", "migrate", "alternative", "option", "choice"],
    "Evaluation Mindset", "Users actively compare against alternatives", "Evaluating Users"⟩,
   ⟨["learn", "understand", "figure out", "how do", "how to", "tutorial", "guide"],
    "Learning Orientation", "Users invest in understanding the product deeply", "Self-Directed Learners"⟩,
   ⟨["daily", "every day", "morning", "routine", "regular", "habit", "always use"],
    "Habitual Usage", "Product is embedded in daily workflows", "Daily Active Users"⟩,
   ⟨["suggest", "recommend", "feedback", "idea", "opinion", "vote", "survey"],
    "Co-Creation Drive", "Users want to influence product direction", "Engaged Advocates"⟩]

/-- Stable insertion of an element into a list sorted descending by the key:
walks past every element whose key is at least k a (so a lands after all
existing elements of equal key) and inserts before the first smaller key. -/
def stableInsert (k : α → Nat) (a : α) : List α → List α
  | [] => [a]
  | b :: bs => if k a ≤ k b then b :: stableInsert k a bs else a :: b :: bs

/-- JS arr.sort((x, y) => k(y) - k(x)): stable sort, descending by the Nat
key.  ECMAScript sort with a consistent comparator produces the unique
stable order, which this insertion sort also produces. -/
def sortByKeyDesc (k : α → Nat) (l : List α) : List α :=
  l.foldl (fun acc a => stableInsert k a acc) []

/-- "N mention" / "N mentions" frequency string. -/
def mentionStr (n : Int) : String :=
  intToStr n ++ " mention" ++ (if 1 < n then "s" else "")

/-- Severity from a total mention count: >=3 high, >=2 medium, else low. -/
def severityForCount (n : Int) : Severity :=
  if 3 ≤ n then Severity.high else if 2 ≤ n then Severity.medium else Severity.low

/-- Explicit pain-point stage for one taxonomy entry: keyword-matching
sentences, cluster boost (sum of sizes of clusters containing a matched
sentence minus the match count, halved and floored), total mentions,
dropped when the total is 0. -/
def painFinding (sentences : List String) (clusters : List (List String)) (p : PainEntry) :
    Option PainPoint :=
  let matching := sentences.filter (fun s => p.keywords.any (fun k => jsIncludes (lowerStr s) k))
  let clusterBoost : Int :=
    if 0 < matching.length then
      (((clusters.filter (fun c => c.any (fun s => matching.contains s))).map
          (fun c => (c.length : Int))).sum) - (matching.length : Int)
    else 0
  let totalMentions : Int := (matching.length : Int) + Int.fdiv clusterBoost 2
  if totalMentions = 0 then none
  else some
    { issue := p.issue
      frequency := mentionStr totalMentions
      severity := severityForCount totalMentions
      quotes := matching.take 3 }

/-- All explicit pain findings in taxonomy order, before sorting. -/
def explicitPainRaw (sentences : List String) (clusters : List (List String)) : List PainPoint :=
  PAIN_KEYWORDS.filterMap (painFinding sentences clusters)

/-- Explicit pain findings after the final sort descending by severity
(sort((a, b) => sevOrder[b.severity] - sevOrder[a.severity]), stable). -/
def explicitPainPoints (sentences : List String) (clusters : List (List String)) : List PainPoint :=
  sortByKeyDesc (fun p => sevRank p.severity) (explicitPainRaw sentences clusters)

/-- Implicit pain-point fallback: cluster the negative-sentiment sentences
at threshold 0.25 and emit up to 3 clusters as Inferred Issue findings. -/
def inferredPainPoints (sentences : List String) : List PainPoint :=
  let negatives := sentences.filter (fun s => decide (inferSentiment s = Sentiment.negative))
  if 0 < negatives.length then
    ((clusterSentences 25 100 negatives).take 3).map (fun cluster =>
      let c0 := cluster.headD ""
      let label := if 60 < c0.length then strTake c0 57 ++ "..." else c0
      { issue := "Inferred Issue: \"" ++ label ++ "\""
        frequency := mentionStr (cluster.length : Int)
        severity := severityForCount (cluster.length : Int)
        quotes := cluster.take 2 })
  else []

/-- Final pain_points list: the sorted explicit findings, or (only when the
explicit stage is empty) the inferred findings appended to the empty list. -/
def painPointsFinal (sentences : List String) (clusters : List (List String)) : List PainPoint :=
  let ex := explicitPainPoints sentences clusters
  if ex.length = 0 then ex ++ inferredPainPoints sentences else ex

/-- Explicit emotional-pattern stage. -/
def explicitEmotions (sentences : List String) : List EmotionalPattern :=
  EMOTION_KEYWORDS.filterMap (fun e =>
    let matched := sentences.filter (fun s => e.keywords.any (fun k => jsIncludes (lowerStr s) k))
    if matched.length = 0 then none
    else some
      { emotion := e.emotion
        intensity := if 3 ≤ matched.length then "High"
          else if 2 ≤ matched.length then "Medium" else "Low"
        trigger := matched.headD ""
        sentiment := e.sentiment })

/-- Implicit emotion fallback from aggregate sentiment counts. -/
def fallbackEmotions (sentences : List String) : List EmotionalPattern :=
  let negC := sentences.countP (fun s => decide (inferSentiment s = Sentiment.negative))
  let posC := sentences.countP (fun s => decide (inferSentiment s = Sentiment.positive))
  let neuC := sentences.countP (fun s => decide (inferSentiment s = Sentiment.neutral))
  (if 0 < negC then
    [{ emotion := "Implicit Dissatisfaction"
       intensity := if 3 ≤ negC then "High" else if 2 ≤ negC then "Medium" else "Low"
       trigger := (sentences.find? (fun s => decide (inferSentiment s = Sentiment.negative))).getD ""
       sentiment := Sentiment.negative }]
   else [])
  ++ (if 0 < posC then
    [{ emotion := "Implicit Approval"
       intensity := if 3 ≤ posC then "High" else if 2 ≤ posC then "Medium" else "Low"
       trigger := (sentences.find? (fun s => decide (inferSentiment s = Sentiment.positive))).getD ""
       sentiment := Sentiment.positive }]
   else [])
  ++ (if 0 < neuC ∧ posC = 0 ∧ negC = 0 then
    [{ emotion := "Neutral Engagement"
       intensity := "Low"
       trigger := (sentences.find? (fun s => decide (inferSentiment s = Sentiment.neutral))).getD ""
       sentiment := Sentiment.neutral }]
   else [])

/-- Final emotional_patterns list: explicit findings, with the implicit
fallback only when the explicit stage found nothing. -/
def emotionsFinal (sentences : List String) : List EmotionalPattern :=
  let ex := explicitEmotions sentences
  if ex.length = 0 then ex ++ fallbackEmotions sentences else ex

/-- Explicit behavioral themes: four keyword conditions tested against the
whole lowercased document, pushed in source order. -/
def explicitThemes (lowerText : String) : List BehavioralTheme :=
  (if jsIncludes lowerText "power user" || jsIncludes lowerText "advanced"
      || jsIncludes lowerText "shortcut" then
    [{ theme := "Power User Optimization"
       description := "Users seek efficiency and advanced workflows"
       user_segment := "Advanced Users" }]
   else [])
  ++ (if jsIncludes lowerText "first time" || jsIncludes lowerText "new"
      || jsIncludes lowerText "beginner" || jsIncludes lowerText "onboard" then
    [{ theme := "Onboarding Friction"
       description := "New users struggle with initial setup and learning curve"
       user_segment := "New Users" }]
   else [])
  ++ (if jsIncludes lowerText "team" || jsIncludes lowerText "collaborat"
      || jsIncludes lowerText "share" || jsIncludes lowerText "together" then
    [{ theme := "Collaboration Needs"
       description := "Users want better team workflows and sharing capabilities"
       user_segment := "Team Users" }]
   else [])
  ++ (if jsIncludes lowerText "custom" || jsIncludes lowerText "configur"
      || jsIncludes lowerText "personali" || jsIncludes lowerText "setting" then
    [{ theme := "Customization Desire"
       description := "Users want more control over their experience"
       user_segment := "All Users" }]
   else [])

/-- Implicit regex-based theme stage; existing is the label set captured
after the explicit stage (the source mutates existingThemes only later, in
the default fallback loop). -/
def implicitThemes (existing : List String) (sentences : List String) : List BehavioralTheme :=
  IMPLICIT_THEME_PATTERNS.filterMap (fun p =>
    if existing.contains p.theme then none
    else if 0 < (sentences.filter (fun s => testWordAlts p.alts s)).length then
      some { theme := p.theme, description := p.description, user_segment := p.user_segment }
    else none)

/-- Recurring Theme finding synthesized from a cluster. -/
def recurringTheme (cluster : List String) : BehavioralTheme :=
  let c0 := cluster.headD ""
  let summary := if 50 < c0.length then strTake c0 47 ++ "..." else c0
  { theme := "Recurring Theme: \"" ++ summary ++ "\""
    description := natToStr cluster.length ++ " semantically similar statements clustered around this topic"
    user_segment := "Detected Segment" }

/-- Cluster-based theme top-up: clusters of size >= 2, sorted descending by
size (stable), first (2 - current length) of them. -/
def clusterTopUp (clusters : List (List String)) (deficit : Nat) : List BehavioralTheme :=
  ((sortByKeyDesc (fun c => c.length) (clusters.filter (fun c => 2 ≤ c.length))).take
      deficit).map recurringTheme

/-- The fixed default themes of the final fallback. -/
def FALLBACK_THEMES : List BehavioralTheme :=
  [{ theme := "Efficiency Seeking"
     description := "Users prioritize speed and streamlined workflows"
     user_segment := "All Users" },
   { theme := "Feature Exploration"
     description := "Users actively discover and request new capabilities"
     user_segment := "Engaged Users" }]

/-- The while (behavioral_themes.length < 2) default loop.  Each iteration
either breaks (no default theme outside existingThemes) or appends one
default and records its label; since only two defaults exist the loop body
runs at most twice, so fuel 2 reproduces every execution. -/
def fallbackLoop : Nat → List BehavioralTheme → List String → List BehavioralTheme
  | 0, themes, _ => themes
  | fuel + 1, themes, existing =>
    if themes.length < 2 then
      match FALLBACK_THEMES.find? (fun f => !existing.contains f.theme) with
      | some fb => fallbackLoop fuel (themes ++ [fb]) (existing ++ [fb.theme])
      | none => themes
    else themes

/-- Final behavioral_themes list: explicit stage, implicit regex stage,
then (only when still short of 2) cluster top-up and the default loop.
existingThemes is captured right after the explicit stage. -/
def themesFinal (lowerText : String) (sentences : List String)
    (clusters : List (List String)) : List BehavioralTheme :=
  let expl := explicitThemes lowerText
  let existing := expl.map (fun t => t.theme)
  let themes := expl ++ implicitThemes existing sentences
  if themes.length < 2 then
    fallbackLoop 2 (themes ++ clusterTopUp clusters (2 - themes.length)) existing
  else themes

/-- Explicit cognitive-bias stage: tests every keyword against the whole
lowercased raw text (not the segmented sentences). -/
def explicitBiasesOf (tbl : List BiasEntry) (lowerText : String) : List CognitiveBias :=
  tbl.filterMap (fun b =>
    let matched := b.keywords.filter (fun k => jsIncludes lowerText k)
    if matched.length = 0 then none
    else some
      { bias := b.bias
        evidence := "Keywords detected: " ++ joinSep ", " matched
        impact := b.impact })

/-- Explicit cognitive biases from the static table. -/
def explicitBiases (lowerText : String) : List CognitiveBias :=
  explicitBiasesOf BIAS_PATTERNS lowerText

/-- Absolute-language alternatives of the implicit bias stage. -/
def absoluteAlts : List String :=
  ["always", "never", "every", "all", "none", "impossible", "definitely", "absolutely", "completely"]

/-- Comparison-language alternatives of the implicit bias stage. -/
def comparisonAlts : List String :=
  ["better", "worse", "more", "less", "than", "compared", "versus", "vs"]

/-- Implicit bias fallback: Absolutist Thinking and Comparative Framing,
independently and additively. -/
def fallbackBiases (sentences : List String) : List CognitiveBias :=
  let absolutes := sentences.filter (fun s => testWordAlts absoluteAlts s)
  let comparisons := sentences.filter (fun s => testWordAlts comparisonAlts s)
  (if 0 < absolutes.length then
    [{ bias := "Absolutist Thinking"
       evidence := natToStr absolutes.length ++ " statement"
         ++ (if 1 < absolutes.length then "s" else "") ++ " using absolute language detected"
       impact := "Extreme language may indicate emotionally-driven rather than balanced feedback" }]
   else [])
  ++ (if 0 < comparisons.length then
    [{ bias := "Comparative Framing"
       evidence := natToStr comparisons.length ++ " comparative statement"
         ++ (if 1 < comparisons.length then "s" else "") ++ " found"
       impact := "Users evaluate features relative to past experience or competitors rather than absolute quality" }]
   else [])

/-- Final cognitive_biases list: explicit stage, implicit fallback only
when the explicit stage found nothing. -/
def biasesFinal (lowerText : String) (sentences : List String) : List CognitiveBias :=
  let ex := explicitBiases lowerText
  if ex.length = 0 then ex ++ fallbackBiases sentences else ex

/-- The two synthesized personas. -/
def personasFinal (sentences : List String) (pain_points : List PainPoint)
    (negativeCount positiveCount : Nat) : List Persona :=
  let topFrustrations :=
    if 0 < pain_points.length then (pain_points.take 2).map (fun p => p.issue)
    else ["Unmet expectations", "Workflow friction"]
  [{ name := "Alex the Advocate"
     role := if negativeCount < positiveCount then "Enthusiastic power user" else "Frustrated loyalist"
     goals := ["Get work done efficiently", "Help improve the product", "Share with team"]
     frustrations := topFrustrations
     quote := jsOrElse (sentences.getD 0 "") "I use this daily but there's room to grow." },
   { name := "Jordan the Explorer"
     role := "Curious newcomer evaluating options"
     goals := ["Understand the product quickly", "Compare with alternatives", "Find value fast"]
     frustrations := "Steep learning curve" ::
       (match pain_points with
        | [] => ["Unclear value proposition"]
        | p :: _ => [p.issue])
     quote := jsOrElse (sentences.getD (sentences.length / 2) "") "I just want it to be straightforward." }]

/-- Recommendations from the top three pain points, priority high, medium,
low in that order. -/
def painRecs (pain_points : List PainPoint) : List Recommendation :=
  (pain_points.take 3).enum.map (fun ip =>
    { priority := if ip.1 = 0 then Severity.high
        else if ip.1 = 1 then Severity.medium else Severity.low
      category := ip.2.issue
      action := "Address " ++ lowerStr ip.2.issue ++ " based on " ++ ip.2.frequency ++ " of user feedback"
      expected_impact := if ip.2.severity = Severity.high then
          "Significant improvement in user satisfaction"
        else "Moderate positive impact on user experience" })

/-- Add up to two emotion-driven recommendations, skipping when an existing
category contains the emotion name. -/
def emotionRecs (recs : List Recommendation) (emotional_patterns : List EmotionalPattern) :
    List Recommendation :=
  ((emotional_patterns.filter (fun e =>
      decide (e.sentiment = Sentiment.negative) && decide (e.intensity ≠ "Low"))).take 2).foldl
    (fun acc e =>
      if acc.any (fun r => jsIncludes r.category e.emotion) then acc
      else acc ++
        [{ priority := if e.intensity = "High" then Severity.high else Severity.medium
           category := e.emotion ++ " Mitigation"
           action := "Investigate and address triggers of user " ++ lowerStr e.emotion
             ++ " in the product experience"
           expected_impact := "Reduced negative sentiment and improved emotional engagement" }])
    recs

/-- Add up to two theme-driven recommendations, skipping identical
categories. -/
def themeRecs (recs : List Recommendation) (behavioral_themes : List BehavioralTheme) :
    List Recommendation :=
  (behavioral_themes.take 2).foldl
    (fun acc t =>
      if acc.any (fun r => decide (r.category = t.theme)) then acc
      else acc ++
        [{ priority := Severity.medium
           category := t.theme
           action := "Optimize the experience for " ++ lowerStr t.user_segment ++ " around "
             ++ lowerStr t.theme
           expected_impact := "Better alignment with observed user behavior patterns" }])
    recs

/-- The fixed default recommendations. -/
def DEFAULT_RECS : List Recommendation :=
  [{ priority := Severity.high
     category := "User Research"
     action := "Conduct targeted user interviews to validate inferred patterns"
     expected_impact := "Stronger evidence base for product decisions" },
   { priority := Severity.medium
     category := "Feedback Loop"
     action := "Implement structured in-app feedback collection to capture richer signals"
     expected_impact := "Better data quality for ongoing analysis" }]

/-- Top up to the minimum of two recommendations with the defaults,
skipping categories already present. -/
def addDefaultRecs (recs : List Recommendation) : List Recommendation :=
  if recs.length < 2 then
    DEFAULT_RECS.foldl
      (fun acc d =>
        if acc.length < 2 && !acc.any (fun r => decide (r.category = d.category)) then acc ++ [d]
        else acc)
      recs
  else recs

/-- Final recommendations list. -/
def recommendationsFinal (pain_points : List PainPoint)
    (emotional_patterns : List EmotionalPattern)
    (behavioral_themes : List BehavioralTheme) : List Recommendation :=
  addDefaultRecs (themeRecs (emotionRecs (painRecs pain_points) emotional_patterns) behavioral_themes)

/-- The executive summary template. -/
def executiveSummary (pain_points : List PainPoint)
    (emotional_patterns : List EmotionalPattern)
    (behavioral_themes : List BehavioralTheme)
    (cognitive_biases : List CognitiveBias)
    (recommendations : List Recommendation)
    (negativeCount positiveCount : Nat) : String :=
  "Analysis of user feedback reveals " ++ natToStr pain_points.length ++ " key pain point"
    ++ (if pain_points.length ≠ 1 then "s" else "") ++ " and "
    ++ natToStr emotional_patterns.length ++ " distinct emotional pattern"
    ++ (if emotional_patterns.length ≠ 1 then "s" else "") ++ ". "
    ++ (if positiveCount < negativeCount then
          "Overall sentiment skews negative, suggesting urgent attention to core issues."
        else if negativeCount < positiveCount then
          "Overall sentiment is positive, with targeted areas for improvement."
        else "Sentiment is mixed, indicating both strengths and areas needing attention.")
    ++ " "
    ++ (match pain_points with
        | [] => ""
        | p :: _ => "The most critical issue is \"" ++ p.issue ++ "\" with " ++ p.frequency ++ ".")
    ++ " "
    ++ (if 0 < cognitive_biases.length then
          natToStr cognitive_biases.length ++ " cognitive bias"
            ++ (if 1 < cognitive_biases.length then "es were" else " was")
            ++ " detected, which should be considered when interpreting results."
        else "")
    ++ " " ++ natToStr behavioral_themes.length ++ " behavioral theme"
    ++ (if behavioral_themes.length ≠ 1 then "s were" else " was") ++ " identified"
    ++ (match behavioral_themes with
        | [] => ""
        | t :: _ => ", including \"" ++ t.theme ++ "\"")
    ++ ". Two user personas were generated to guide product strategy, with "
    ++ natToStr recommendations.length ++ " actionable recommendations prioritized by impact."

/-- analyzeUserFeedback: the single entry point, raw text to Report. -/
def analyzeUserFeedback (rawText : String) : AnalysisResult :=
  let sentences := extractSentences rawText
  let lowerText := lowerStr rawText
  let clusters := clusterSentences 35 100 sentences
  let pain_points := painPointsFinal sentences clusters
  let emotional_patterns := emotionsFinal sentences
  let behavioral_themes := themesFinal lowerText sentences clusters
  let cognitive_biases := biasesFinal lowerText sentences
  let negativeCount := (emotional_patterns.filter (fun e => decide (e.sentiment = Sentiment.negative))).length
  let positiveCount := (emotional_patterns.filter (fun e => decide (e.sentiment = Sentiment.positive))).length
  { pain_points := pain_points
    emotional_patterns := emotional_patterns
    behavioral_themes := behavioral_themes
    cognitive_biases := cognitive_biases
    personas := personasFinal sentences pain_points negativeCount positiveCount
    recommendations := recommendationsFinal pain_points emotional_patterns behavioral_themes
    executive_summary := executiveSummary pain_points emotional_patterns behavioral_themes
      cognitive_biases (recommendationsFinal pain_points emotional_patterns behavioral_themes)
      negativeCount positiveCount }

/-- Inserting stably is a permutation of consing. -/
theorem stableInsert_perm (k : α → Nat) (a : α) :
    ∀ l : List α, List.Perm (stableInsert k a l) (a :: l) := by
  intro l
  induction l with
  | nil => exact List.Perm.refl _
  | cons b bs ih =>
    unfold stableInsert
    by_cases h : k a ≤ k b
    · rw [if_pos h]
      exact (ih.cons b).trans (List.Perm.swap a b bs)
    · rw [if_neg h]

/-- Membership in a stable insertion. -/
theorem mem_stableInsert (k : α → Nat) (a x : α) (l : List α) :
    x ∈ stableInsert k a l ↔ x = a ∨ x ∈ l := by
  rw [(stableInsert_perm k a l).mem_iff]
  simp

/-- Stable insertion preserves descending sortedness by the key. -/
theorem stableInsert_sorted (k : α → Nat) (a : α) :
    ∀ l : List α, l.Pairwise (fun x y => k y ≤ k x) →
      (stableInsert k a l).Pairwise (fun x y => k y ≤ k x) := by
  intro l
  induction l with
  | nil =>
    intro _
    simp [stableInsert]
  | cons b bs ih =>
    intro h
    rw [List.pairwise_cons] at h
    obtain ⟨hb, hbs⟩ := h
    unfold stableInsert
    by_cases hab : k a ≤ k b
    · rw [if_pos hab, List.pairwise_cons]
      constructor
      · intro y hy
        rcases (mem_stableInsert k a y bs).mp hy with rfl | hyb
        · exact hab
        · exact hb y hyb
      · exact ih hbs
    · rw [if_neg hab, List.pairwise_cons]
      constructor
      · intro y hy
        rcases List.mem_cons.mp hy with rfl | hyb
        · omega
        · exact le_trans (hb y hyb) (by omega)
      · rw [List.pairwise_cons]
        exact ⟨hb, hbs⟩

/-- In a descending-sorted list, stable insertion puts the new element after
every existing element of the same key: filtering any key class commutes
with the insertion, the new element landing at the end of its class. -/
theorem stableInsert_filter_key (k : α → Nat) (a : α) (n : Nat) :
    ∀ l : List α, l.Pairwise (fun x y => k y ≤ k x) →
      (stableInsert k a l).filter (fun x => decide (k x = n)) =
        (if k a = n then l.filter (fun x => decide (k x = n)) ++ [a]
         else l.filter (fun x => decide (k x = n))) := by
  intro l
  induction l with
  | nil =>
    intro _
    by_cases hk : k a = n <;> simp [stableInsert, hk]
  | cons b bs ih =>
    intro h
    rw [List.pairwise_cons] at h
    obtain ⟨hb, hbs⟩ := h
    unfold stableInsert
    by_cases hab : k a ≤ k b
    · rw [if_pos hab]
      by_cases hkb : k b = n
      · by_cases hk : k a = n <;> simp [List.filter_cons, hkb, hk, ih hbs]
      · by_cases hk : k a = n <;> simp [List.filter_cons, hkb, hk, ih hbs]
    · rw [if_neg hab]
      by_cases hk : k a = n
      · have hnil : List.filter (fun x => decide (k x = n)) (b :: bs) = [] := by
          rw [List.filter_eq_nil_iff]
          intro x hx
          simp only [decide_eq_true_eq]
          rcases List.mem_cons.mp hx with rfl | hxb
          · omega
          · have := hb x hxb
            omega
        simp [List.filter_cons, hk, hnil]
      · simp [List.filter_cons, hk]

/-- The fold of stable insertions: permutation invariant. -/
theorem sortFold_perm (k : α → Nat) :
    ∀ (l acc : List α),
      List.Perm (l.foldl (fun acc a => stableInsert k a acc) acc) (acc ++ l) := by
  intro l
  induction l with
  | nil =>
    intro acc
    simp
  | cons a l ih =>
    intro acc
    rw [List.foldl_cons]
    refine (ih (stableInsert k a acc)).trans ?_
    refine ((stableInsert_perm k a acc).append_right l).trans ?_
    exact List.perm_middle.symm

/-- sortByKeyDesc is a permutation of its input. -/
theorem sortByKeyDesc_perm (k : α → Nat) (l : List α) :
    List.Perm (sortByKeyDesc k l) l := by
  have := sortFold_perm k l []
  simpa [sortByKeyDesc] using this

/-- The fold of stable insertions preserves sortedness of the accumulator. -/
theorem sortFold_sorted (k : α → Nat) :
    ∀ (l acc : List α), acc.Pairwise (fun x y => k y ≤ k x) →
      (l.foldl (fun acc a => stableInsert k a acc) acc).Pairwise (fun x y => k y ≤ k x) := by
  intro l
  induction l with
  | nil =>
    intro acc h
    simpa using h
  | cons a l ih =>
    intro acc h
    rw [List.foldl_cons]
    exact ih _ (stableInsert_sorted k a acc h)

/-- sortByKeyDesc sorts descending by the key. -/
theorem sortByKeyDesc_sorted (k : α → Nat) (l : List α) :
    (sortByKeyDesc k l).Pairwise (fun x y => k y ≤ k x) := by
  exact sortFold_sorted k l [] (by simp)

/-- The fold of stable insertions appends each key class in arrival order. -/
theorem sortFold_filter_key (k : α → Nat) (n : Nat) :
    ∀ (l acc : List α), acc.Pairwise (fun x y => k y ≤ k x) →
      (l.foldl (fun acc a => stableInsert k a acc) acc).filter (fun x => decide (k x = n)) =
        acc.filter (fun x => decide (k x = n)) ++ l.filter (fun x => decide (k x = n)) := by
  intro l
  induction l with
  | nil =>
    intro acc _
    simp
  | cons a l ih =>
    intro acc h
    rw [List.foldl_cons, ih _ (stableInsert_sorted k a acc h),
      stableInsert_filter_key k a n acc h, List.filter_cons]
    by_cases hk : k a = n
    · rw [if_pos hk, if_pos (by simp [hk])]
      simp
    · rw [if_neg hk, if_neg (by simp [hk])]

/-- Stability of sortByKeyDesc: each key class keeps its input order. -/
theorem sortByKeyDesc_filter_key (k : α → Nat) (n : Nat) (l : List α) :
    (sortByKeyDesc k l).filter (fun x => decide (k x = n)) =
      l.filter (fun x => decide (k x = n)) := by
  have := sortFold_filter_key k n l [] (by simp)
  simpa [sortByKeyDesc] using this

/-- The clustering loop partitions whatever it is given, for any fuel at
least the length of the list: the clusters flatten to a permutation of the
input and every cluster is non-empty (it contains its seed). -/
theorem clusterAux_partition (θn θd : Nat) :
    ∀ (fuel : Nat) (l : List String), l.length ≤ fuel →
      List.Perm (clusterAux θn θd fuel l).flatten l ∧
        ∀ c ∈ clusterAux θn θd fuel l, c ≠ [] := by
  intro fuel
  induction fuel with
  | zero =>
    intro l hl
    have : l = [] := List.eq_nil_of_length_eq_zero (Nat.le_zero.mp hl)
    subst this
    simp [clusterAux]
  | succ fuel ih =>
    intro l hl
    match l with
    | [] => simp [clusterAux]
    | s :: rest =>
      simp only [clusterAux]
      have hrem : (rest.filter (fun t => !simGE θn θd s t)).length ≤ fuel :=
        le_trans (rest.length_filter_le _) (Nat.le_of_succ_le_succ hl)
      obtain ⟨ihp, ihne⟩ := ih _ hrem
      constructor
      · rw [List.flatten_cons, List.cons_append]
        refine List.Perm.cons s ?_
        refine (ihp.append_left _).trans ?_
        exact List.filter_append_perm _ rest
      · intro c hc
        rcases List.mem_cons.mp hc with rfl | hcrec
        · simp
        · exact ihne c hcrec

/-- C3: for every list of sentences and every threshold θn/θd in [0,1]
(0 < θd, θn ≤ θd), clusterSentences returns a partition of its input: the
concatenation of the output clusters is a permutation of the input sentence
sequence (every input position appears in exactly one cluster) and every
cluster is non-empty. -/
theorem clusterSentences_partition (sentences : List String) (θn θd : Nat)
    (_hθ1 : θn ≤ θd) (_hθ2 : 0 < θd) :
    List.Perm (clusterSentences θn θd sentences).flatten sentences ∧
      ∀ c ∈ clusterSentences θn θd sentences, c ≠ [] :=
  clusterAux_partition θn θd sentences.length sentences le_rfl

/-- C3 witness: the partition property at a concrete sentence list and the
default threshold 0.35 = 35/100. -/
theorem clusterSentences_partition_witness :
    List.Perm (clusterSentences 35 100 ["the cat sat on the mat", "dogs bark loudly at night",
        "the cat sat on a mat"]).flatten
      ["the cat sat on the mat", "dogs bark loudly at night", "the cat sat on a mat"] ∧
    ∀ c ∈ clusterSentences 35 100 ["the cat sat on the mat", "dogs bark loudly at night",
        "the cat sat on a mat"], c ≠ [] :=
  clusterSentences_partition _ 35 100 (by norm_num) (by norm_num)

/-- The cross-multiplied threshold test of the embedding decides exactly
the rational comparison threshold <= semanticSimilarity of the source. -/
theorem simGE_correct (θn θd : Nat) (hd : 0 < θd) (x y : String) :
    simGE θn θd x y = decide ((θn : ℚ) / (θd : ℚ) ≤ semanticSimilarity x y) := by
  unfold simGE semanticSimilarity
  have hdq : (0 : ℚ) < (θd : ℚ) := by exact_mod_cast hd
  by_cases h : (tokenSet x).card = 0 ∨ (tokenSet y).card = 0
  · rw [if_pos h, if_pos h, decide_eq_decide]
    constructor
    · intro h0
      subst h0
      simp
    · intro hle
      have h0 : (θn : ℚ) / (θd : ℚ) = 0 :=
        le_antisymm hle (div_nonneg (by positivity) (le_of_lt hdq))
      field_simp at h0
      exact h0
  · rw [if_neg h, if_neg h, decide_eq_decide]
    push_neg at h
    obtain ⟨hx, hy⟩ := h
    have hmin : 0 < min (tokenSet x).card (tokenSet y).card := by
      rcases Nat.eq_zero_or_pos (tokenSet x).card with h0 | h0
      · exact absurd h0 hx
      rcases Nat.eq_zero_or_pos (tokenSet y).card with h1 | h1
      · exact absurd h1 hy
      exact lt_min h0 h1
    have hminq : (0 : ℚ) < ((min (tokenSet x).card (tokenSet y).card : Nat) : ℚ) := by
      exact_mod_cast hmin
    rw [← Nat.cast_min, div_le_div_iff₀ hdq hminq]
    rw [show ((tokenSet x ∩ tokenSet y).card : ℚ) * (θd : ℚ)
        = ((θd * (tokenSet x ∩ tokenSet y).card : Nat) : ℚ) by push_cast; ring]
    rw [show (θn : ℚ) * ((min (tokenSet x).card (tokenSet y).card : Nat) : ℚ)
        = ((θn * min (tokenSet x).card (tokenSet y).card : Nat) : ℚ) by push_cast; ring]
    exact Iff.symm Nat.cast_le

/-- C4: semanticSimilarity is symmetric (the denominator is the smaller set
size regardless of argument order), reflexively 1 on any sentence whose
normalized token set is non-empty, 0 whenever either token set is empty,
and always lies in [0, 1]. -/
theorem semanticSimilarity_props :
    (∀ a b, semanticSimilarity a b = semanticSimilarity b a) ∧
    (∀ a, tokenSet a ≠ ∅ → semanticSimilarity a a = 1) ∧
    (∀ a b, tokenSet a = ∅ ∨ tokenSet b = ∅ → semanticSimilarity a b = 0) ∧
    (∀ a b, 0 ≤ semanticSimilarity a b ∧ semanticSimilarity a b ≤ 1) := by
  refine ⟨?_, ?_, ?_, ?_⟩
  · intro a b
    unfold semanticSimilarity
    by_cases h : (tokenSet a).card = 0 ∨ (tokenSet b).card = 0
    · rw [if_pos h, if_pos (Or.symm h)]
    · rw [if_neg h, if_neg (fun hc => h (Or.symm hc))]
      rw [Finset.inter_comm, min_comm]
  · intro a ha
    have hc : (tokenSet a).card ≠ 0 := by
      simpa [Finset.card_eq_zero] using ha
    unfold semanticSimilarity
    rw [if_neg (by simp [hc])]
    rw [Finset.inter_self, min_self]
    exact div_self (by exact_mod_cast hc)
  · intro a b h
    have hc : (tokenSet a).card = 0 ∨ (tokenSet b).card = 0 := by
      rcases h with h | h
      · exact Or.inl (by simp [h])
      · exact Or.inr (by simp [h])
    unfold semanticSimilarity
    rw [if_pos hc]
  · intro a b
    unfold semanticSimilarity
    by_cases h : (tokenSet a).card = 0 ∨ (tokenSet b).card = 0
    · rw [if_pos h]
      norm_num
    · rw [if_neg h]
      push_neg at h
      obtain ⟨hx, hy⟩ := h
      have hmin : (0 : ℚ) < min ((tokenSet a).card : ℚ) ((tokenSet b).card : ℚ) := by
        apply lt_min
        · exact_mod_cast Nat.pos_of_ne_zero hx
        · exact_mod_cast Nat.pos_of_ne_zero hy
      constructor
      · exact div_nonneg (by positivity) (le_of_lt hmin)
      · rw [div_le_one hmin]
        apply le_min
        · exact_mod_cast Finset.card_le_card Finset.inter_subset_left
        · exact_mod_cast Finset.card_le_card Finset.inter_subset_right
  
/-- C4 witness: the reflexivity clause applied at a concrete sentence with
a non-empty token set. -/
theorem semanticSimilarity_props_witness :
    semanticSimilarity "hello world" "hello world" = 1 :=
  semanticSimilarity_props.2.1 "hello world" (by decide)

/-- C5 counterexample: normalizeToken does not stop after the first
matching suffix.  On "gathering" the first matching suffix in the priority
order is "ing", so the claimed behaviour (specNormalizeToken, modelled from
the spec) yields "gather"; the source chains the replacements, so "er" is
stripped again from "gather", yielding "gath". -/
theorem normalizeToken_first_match_cex :
    normalizeToken "gathering" ≠ specNormalizeToken "gathering" ∧
    normalizeToken "gathering" = "gath" ∧
    specNormalizeToken "gathering" = "gather" := by
  refine ⟨by decide, by decide, by decide⟩

/-- C5 amended: normalizeToken applies the fourteen suffix rules
sequentially, in the priority order ing, tion, ment, ness, able, ful, less,
ous, ive, ly, ed, er, es, s, each rule stripping its suffix from the result
of the previous rule when that result ends with it; a later rule can strip
a further suffix from the output of an earlier rule (e.g. "gathering" to
"gather" to "gath"). -/
theorem normalizeToken_sequential :
    (∀ w, normalizeToken w = suffixOrder.foldl (fun v suf => stripEnd suf v) w) ∧
    normalizeToken "gathering" = "gath" :=
  ⟨fun w => by simp only [suffixOrder, List.foldl_cons, List.foldl_nil, normalizeToken],
   by decide⟩

/-- C9: the segmenter never fails: splitting the empty string yields zero
sentences; every output is one of the trimmed fragments of the
delimiter-run split, in original order (a sublist of the trimmed
candidates); and every survivor is longer than 10 characters. -/
theorem extractSentences_props :
    extractSentences "" = [] ∧
    (∀ text, List.Sublist (extractSentences text)
        ((splitRuns isSentenceDelim text).map trimStr)) ∧
    (∀ text s, s ∈ extractSentences text → 10 < s.length) := by
  refine ⟨by decide, ?_, ?_⟩
  · intro t
    exact List.filter_sublist _
  · intro t s hs
    have := List.of_mem_filter hs
    simpa using this

/-- C9 witness: the length clause applied to the one surviving sentence of
a concrete input (the fragment "Hi" is discarded by the length filter). -/
theorem extractSentences_props_witness :
    10 < ("Hello there friend" : String).length :=
  extractSentences_props.2.2 "Hello there friend. Hi." "Hello there friend" (by decide)

/-- C2: the embedded pipeline is a pure function of the raw text and the
static taxonomy tables: it reads no clock, no randomness and performs no
I/O, so two invocations on identical text produce field-for-field identical
Reports.  In the embedding this determinism is definitional. -/
theorem analyzeUserFeedback_deterministic :
    ∀ text : String,
      (analyzeUserFeedback text).pain_points = (analyzeUserFeedback text).pain_points ∧
      (analyzeUserFeedback text).emotional_patterns = (analyzeUserFeedback text).emotional_patterns ∧
      (analyzeUserFeedback text).behavioral_themes = (analyzeUserFeedback text).behavioral_themes ∧
      (analyzeUserFeedback text).cognitive_biases = (analyzeUserFeedback text).cognitive_biases ∧
      (analyzeUserFeedback text).personas = (analyzeUserFeedback text).personas ∧
      (analyzeUserFeedback text).recommendations = (analyzeUserFeedback text).recommendations ∧
      (analyzeUserFeedback text).executive_summary = (analyzeUserFeedback text).executive_summary :=
  fun _ => ⟨rfl, rfl, rfl, rfl, rfl, rfl, rfl⟩

/-- The explicit theme stage only ever produces the four fixed labels, so
neither default fallback label is among them. -/
theorem fallback_labels_not_explicit (lt : String) :
    "Efficiency Seeking" ∉ (explicitThemes lt).map (fun t => t.theme) ∧
    "Feature Exploration" ∉ (explicitThemes lt).map (fun t => t.theme) := by
  unfold explicitThemes
  constructor <;> (split_ifs <;> decide)

/-- Membership turned into a contains equation for the default loop. -/
theorem contains_eq_false_of_not_mem (l : List String) (x : String) (h : x ∉ l) :
    l.contains x = false := by
  simp [List.elem_eq_mem, h]

/-- One successful iteration of the default loop. -/
theorem fallbackLoop_step (fuel : Nat) (themes : List BehavioralTheme) (existing : List String)
    (fb : BehavioralTheme) (hl : themes.length < 2)
    (hfind : FALLBACK_THEMES.find? (fun f => !existing.contains f.theme) = some fb) :
    fallbackLoop (fuel + 1) themes existing
      = fallbackLoop fuel (themes ++ [fb]) (existing ++ [fb.theme]) := by
  conv_lhs => unfold fallbackLoop
  rw [if_pos hl, hfind]

/-- The default loop is inert once two themes exist. -/
theorem fallbackLoop_stop (fuel : Nat) (themes : List BehavioralTheme) (existing : List String)
    (hl : ¬ themes.length < 2) :
    fallbackLoop (fuel + 1) themes existing = themes := by
  unfold fallbackLoop
  rw [if_neg hl]

/-- As long as neither default label is already recorded, the default loop
brings the theme list to length at least 2. -/
theorem fallbackLoop_min (themes : List BehavioralTheme) (existing : List String)
    (h1 : "Efficiency Seeking" ∉ existing) (h2 : "Feature Exploration" ∉ existing) :
    2 ≤ (fallbackLoop 2 themes existing).length := by
  have hfind1 : FALLBACK_THEMES.find? (fun f => !existing.contains f.theme)
      = some ⟨"Efficiency Seeking", "Users prioritize speed and streamlined workflows",
          "All Users"⟩ := by
    rw [FALLBACK_THEMES]
    exact List.find?_cons_of_pos _ (by simp [h1])
  have hfind2 : FALLBACK_THEMES.find?
      (fun f => !(existing ++ ["Efficiency Seeking"]).contains f.theme)
      = some ⟨"Feature Exploration", "Users actively discover and request new capabilities",
          "Engaged Users"⟩ := by
    rw [FALLBACK_THEMES]
    rw [List.find?_cons_of_neg _ (by simp)]
    exact List.find?_cons_of_pos _ (by simp [h2])
  rcases themes with _ | ⟨t1, rest⟩
  · rw [fallbackLoop_step 1 [] existing _ (by simp) hfind1]
    rw [fallbackLoop_step 0 _ _ _ (by simp) hfind2]
    simp [fallbackLoop]
  · rcases rest with _ | ⟨t2, rest2⟩
    · rw [fallbackLoop_step 1 [t1] existing _ (by simp) hfind1]
      rw [fallbackLoop_stop 0 _ _ (by simp)]
      simp
    · rw [fallbackLoop_stop 1 _ _ (by simp)]
      simp

/-- The final theme list always has at least two entries. -/
theorem themesFinal_min (lt : String) (ss : List String) (cls : List (List String)) :
    2 ≤ (themesFinal lt ss cls).length := by
  unfold themesFinal
  obtain ⟨h1, h2⟩ := fallback_labels_not_explicit lt
  by_cases h : (explicitThemes lt ++
      implicitThemes ((explicitThemes lt).map (fun t => t.theme)) ss).length < 2
  · rw [if_pos h]
    exact fallbackLoop_min _ _ h1 h2
  · rw [if_neg h]
    omega

/-- Topping up with the default recommendations always reaches length 2:
with zero previous recommendations both defaults are appended; with one,
at most one default can share its category, so the other is appended. -/
theorem addDefaultRecs_min (recs : List Recommendation) :
    2 ≤ (addDefaultRecs recs).length := by
  unfold addDefaultRecs
  by_cases h : recs.length < 2
  · rw [if_pos h]
    match recs, h with
    | [], _ => decide
    | [r], _ =>
      simp only [DEFAULT_RECS, List.foldl_cons, List.foldl_nil]
      by_cases hc : r.category = "User Research"
      · simp [hc]
      · simp [hc]
  · rw [if_neg h]
    omega

/-- The final recommendation list always has at least two entries. -/
theorem recommendationsFinal_min (pp : List PainPoint) (ep : List EmotionalPattern)
    (bt : List BehavioralTheme) : 2 ≤ (recommendationsFinal pp ep bt).length :=
  addDefaultRecs_min _

/-- C1: for every input text (including the empty string) the Report has at
least 2 behavioral themes, at least 2 recommendations and exactly 2
personas; the pipeline is a total function, so it never fails. -/
theorem report_minimum_counts :
    ∀ text : String,
      2 ≤ (analyzeUserFeedback text).behavioral_themes.length ∧
      2 ≤ (analyzeUserFeedback text).recommendations.length ∧
      (analyzeUserFeedback text).personas.length = 2 := by
  intro t
  refine ⟨?_, ?_, ?_⟩
  · exact themesFinal_min _ _ _
  · exact recommendationsFinal_min _ _ _
  · rfl

/-- The sentences of the text matching a pain entry by case-insensitive
substring. -/
def painMatches (text : String) (p : PainEntry) : List String :=
  (extractSentences text).filter (fun s => p.keywords.any (fun k => jsIncludes (lowerStr s) k))

/-- The cluster boost of the claim: the summed sizes of all main-run
clusters containing any matched sentence, minus the explicit match count. -/
def painBoost (text : String) (p : PainEntry) : Int :=
  (((clusterSentences 35 100 (extractSentences text)).filter
      (fun c => c.any (fun s => (painMatches text p).contains s))).map
    (fun c => (c.length : Int))).sum - ((painMatches text p).length : Int)

/-- The total mention count of the claim: explicit matches plus the floor
of half the cluster boost. -/
def painTotal (text : String) (p : PainEntry) : Int :=
  ((painMatches text p).length : Int) + Int.fdiv (painBoost text p) 2

/-- C6: every explicit pain-point finding carries the mention count of the
claim formula: explicit match count plus floor of half the cluster boost
(summed sizes of clusters containing a matched sentence minus the match
count), and its severity tier is assigned from that total (1 low, 2 medium,
3 or more high, by severityForCount). -/
theorem pain_mention_formula (text : String) (p : PainEntry) (_hp : p ∈ PAIN_KEYWORDS)
    (f : PainPoint)
    (hf : painFinding (extractSentences text) (clusterSentences 35 100 (extractSentences text)) p
      = some f) :
    f.frequency = mentionStr (painTotal text p) ∧
    f.severity = severityForCount (painTotal text p) := by
  simp only [painFinding] at hf
  by_cases h0 : 0 < ((extractSentences text).filter
      (fun s => p.keywords.any (fun k => jsIncludes (lowerStr s) k))).length
  · rw [if_pos h0] at hf
    by_cases ht : (((extractSentences text).filter
        (fun s => p.keywords.any (fun k => jsIncludes (lowerStr s) k))).length : Int)
        + Int.fdiv ((((clusterSentences 35 100 (extractSentences text)).filter
            (fun c => c.any (fun s => ((extractSentences text).filter
              (fun s => p.keywords.any (fun k => jsIncludes (lowerStr s) k))).contains s))).map
              (fun c => (c.length : Int))).sum
          - (((extractSentences text).filter
              (fun s => p.keywords.any (fun k => jsIncludes (lowerStr s) k))).length : Int)) 2
        = 0
    · rw [if_pos ht] at hf
      exact absurd hf (by simp)
    · rw [if_neg ht] at hf
      have hfv := Option.some.inj hf
      subst hfv
      exact ⟨rfl, rfl⟩
  · rw [if_neg h0] at hf
    have h00 : ((extractSentences text).filter
        (fun s => p.keywords.any (fun k => jsIncludes (lowerStr s) k))).length = 0 := by
      omega
    rw [h00] at hf
    simp at hf

/-- C6 witness: the formula evaluated on a concrete one-sentence input
matching the Performance entry: 1 explicit match, boost 0, total 1, tier
low. -/
theorem pain_mention_formula_witness :
    ({ issue := "Performance & Speed Issues", frequency := "1 mention",
       severity := Severity.low,
       quotes := ["Everything feels slow here"] } : PainPoint).frequency
        = mentionStr (painTotal "Everything feels slow here"
            ⟨["slow", "loading", "wait", "lag", "performance", "takes forever", "too long", "speed"],
              "Performance & Speed Issues"⟩) ∧
    ({ issue := "Performance & Speed Issues", frequency := "1 mention",
       severity := Severity.low,
       quotes := ["Everything feels slow here"] } : PainPoint).severity
        = severityForCount (painTotal "Everything feels slow here"
            ⟨["slow", "loading", "wait", "lag", "performance", "takes forever", "too long", "speed"],
              "Performance & Speed Issues"⟩) :=
  pain_mention_formula "Everything feels slow here"
    ⟨["slow", "loading", "wait", "lag", "performance", "takes forever", "too long", "speed"],
      "Performance & Speed Issues"⟩ (by decide) _ (by decide)

set_option maxHeartbeats 2000000 in
/-- C7 counterexample: when the explicit pain stage finds nothing, the
implicit fallback appends Inferred Issue findings after the sort has
already run, in cluster order.  On this input the negative sentences
cluster (at 0.25) into a singleton followed by a pair, so the final
pain_points severities are [low, medium] - not sorted descending. -/
theorem pain_sort_cex :
    ¬ List.Pairwise (fun a b => sevRank b.severity ≤ sevRank a.severity)
      ((analyzeUserFeedback "Honestly the weather seemed bad. That poor fellow kept crying loudly. That poor fellow was crying again.").pain_points) := by
  decide

/-- C7 amended: whenever the explicit stage produces at least one finding
(so the implicit fallback does not run), the final pain_points list is the
explicit list sorted descending by severity tier, and the sort is stable:
for every severity the findings of that tier appear in the same order as in
the unsorted taxonomy-order list.  When the explicit stage is empty the
fallback findings are appended in cluster order without re-sorting. -/
theorem pain_sort_amended (text : String)
    (hex : explicitPainPoints (extractSentences text)
        (clusterSentences 35 100 (extractSentences text)) ≠ []) :
    (analyzeUserFeedback text).pain_points
        = explicitPainPoints (extractSentences text)
            (clusterSentences 35 100 (extractSentences text)) ∧
    List.Pairwise (fun a b => sevRank b.severity ≤ sevRank a.severity)
      ((analyzeUserFeedback text).pain_points) ∧
    (∀ sv : Severity,
      ((analyzeUserFeedback text).pain_points.filter (fun q => decide (q.severity = sv)))
        = ((explicitPainRaw (extractSentences text)
              (clusterSentences 35 100 (extractSentences text))).filter
            (fun q => decide (q.severity = sv)))) := by
  have hmain : (analyzeUserFeedback text).pain_points
      = explicitPainPoints (extractSentences text)
          (clusterSentences 35 100 (extractSentences text)) := by
    simp only [analyzeUserFeedback, painPointsFinal]
    rw [if_neg (by simpa [List.length_eq_zero] using hex)]
  refine ⟨hmain, ?_, ?_⟩
  · rw [hmain]
    exact sortByKeyDesc_sorted (fun (q : PainPoint) => sevRank q.severity) _
  · intro sv
    rw [hmain]
    unfold explicitPainPoints
    have hpt : ∀ q : PainPoint,
        (decide (q.severity = sv)) = (decide (sevRank q.severity = sevRank sv)) := by
      intro q
      cases q.severity <;> cases sv <;> simp [sevRank]
    calc (sortByKeyDesc (fun q => sevRank q.severity)
            (explicitPainRaw (extractSentences text)
              (clusterSentences 35 100 (extractSentences text)))).filter
          (fun (q : PainPoint) => decide (q.severity = sv))
        = (sortByKeyDesc (fun q => sevRank q.severity)
            (explicitPainRaw (extractSentences text)
              (clusterSentences 35 100 (extractSentences text)))).filter
          (fun (q : PainPoint) => decide (sevRank q.severity = sevRank sv)) :=
          List.filter_congr (fun q _ => hpt q)
      _ = (explicitPainRaw (extractSentences text)
            (clusterSentences 35 100 (extractSentences text))).filter
          (fun (q : PainPoint) => decide (sevRank q.severity = sevRank sv)) :=
          sortByKeyDesc_filter_key (fun (q : PainPoint) => sevRank q.severity) (sevRank sv) _
      _ = (explicitPainRaw (extractSentences text)
            (clusterSentences 35 100 (extractSentences text))).filter
          (fun (q : PainPoint) => decide (q.severity = sv)) :=
          (List.filter_congr (fun q _ => (hpt q).symm))

set_option maxHeartbeats 1000000 in
/-- C7 witness: the amended statement at a concrete input whose explicit
stage fires (the sentence matches the Performance and Navigation entries). -/
theorem pain_sort_amended_witness :
    (analyzeUserFeedback "Everything feels slow here").pain_points
        = explicitPainPoints (extractSentences "Everything feels slow here")
            (clusterSentences 35 100 (extractSentences "Everything feels slow here")) ∧
    List.Pairwise (fun a b => sevRank b.severity ≤ sevRank a.severity)
      ((analyzeUserFeedback "Everything feels slow here").pain_points) ∧
    (∀ sv : Severity,
      ((analyzeUserFeedback "Everything feels slow here").pain_points.filter
          (fun q => decide (q.severity = sv)))
        = ((explicitPainRaw (extractSentences "Everything feels slow here")
              (clusterSentences 35 100 (extractSentences "Everything feels slow here"))).filter
            (fun q => decide (q.severity = sv)))) :=
  pain_sort_amended "Everything feels slow here" (by decide)

set_option maxHeartbeats 1000000 in
/-- C8 counterexample: existingThemes only records explicit-stage labels,
so a theme added by the implicit regex stage is not skipped by the default
fallback.  On this input the implicit stage emits "Efficiency Seeking"
(the sentence contains the word "fast"), the cluster top-up adds nothing,
and the default loop appends "Efficiency Seeking" again: the final list
carries a duplicate label. -/
theorem themes_duplicate_cex :
    ((analyzeUserFeedback "That was so fast for me").behavioral_themes.map (fun t => t.theme))
        = ["Efficiency Seeking", "Efficiency Seeking"] ∧
    ¬ (((analyzeUserFeedback "That was so fast for me").behavioral_themes.map
        (fun t => t.theme)).Nodup) := by
  refine ⟨by decide, by decide⟩

/-- C8 amended: the default fallback skips only against the recorded label
set (the explicit-stage labels, extended by defaults it has itself
appended), not against the whole behavioral_themes list: the appended
defaults are pairwise distinct and none of them repeats a recorded label,
but they can duplicate a label produced by the implicit or cluster stages,
so the final list may contain two entries with the same theme label. -/
theorem fallback_defaults_amended (themes : List BehavioralTheme) (existing : List String)
    (h1 : "Efficiency Seeking" ∉ existing) (h2 : "Feature Exploration" ∉ existing) :
    ((((fallbackLoop 2 themes existing).drop themes.length).map (fun t => t.theme)).Nodup) ∧
    (∀ lbl ∈ ((fallbackLoop 2 themes existing).drop themes.length).map (fun t => t.theme),
      lbl ∉ existing) := by
  have hfind1 : FALLBACK_THEMES.find? (fun f => !existing.contains f.theme)
      = some ⟨"Efficiency Seeking", "Users prioritize speed and streamlined workflows",
          "All Users"⟩ := by
    rw [FALLBACK_THEMES]
    exact List.find?_cons_of_pos _ (by simp [h1])
  have hfind2 : FALLBACK_THEMES.find?
      (fun f => !(existing ++ ["Efficiency Seeking"]).contains f.theme)
      = some ⟨"Feature Exploration", "Users actively discover and request new capabilities",
          "Engaged Users"⟩ := by
    rw [FALLBACK_THEMES]
    rw [List.find?_cons_of_neg _ (by simp)]
    exact List.find?_cons_of_pos _ (by simp [h2])
  rcases themes with _ | ⟨t1, rest⟩
  · have hres : fallbackLoop 2 [] existing
        = [⟨"Efficiency Seeking", "Users prioritize speed and streamlined workflows",
            "All Users"⟩,
           ⟨"Feature Exploration", "Users actively discover and request new capabilities",
            "Engaged Users"⟩] := by
      rw [fallbackLoop_step 1 [] existing _ (by simp) hfind1]
      rw [fallbackLoop_step 0 _ _ _ (by simp) hfind2]
      rfl
    rw [hres]
    constructor
    · decide
    · intro lbl hlbl
      rcases (by simpa using hlbl :
          lbl = "Efficiency Seeking" ∨ lbl = "Feature Exploration") with rfl | rfl
      · exact h1
      · exact h2
  · rcases rest with _ | ⟨t2, rest2⟩
    · have hres : fallbackLoop 2 [t1] existing
          = [t1] ++ [⟨"Efficiency Seeking",
              "Users prioritize speed and streamlined workflows", "All Users"⟩] := by
        rw [fallbackLoop_step 1 [t1] existing _ (by simp) hfind1]
        rw [fallbackLoop_stop 0 _ _ (by simp)]
      rw [hres, List.drop_left]
      constructor
      · decide
      · intro lbl hlbl
        rcases (by simpa using hlbl : lbl = "Efficiency Seeking") with rfl
        exact h1
    · rw [fallbackLoop_stop 1 _ _ (by simp), List.drop_length]
      simp

/-- C8 amended witness: the statement at empty starting lists. -/
theorem fallback_defaults_amended_witness :
    ((((fallbackLoop 2 [] []).drop ([] : List BehavioralTheme).length).map
        (fun t => t.theme)).Nodup) ∧
    (∀ lbl ∈ ((fallbackLoop 2 [] []).drop ([] : List BehavioralTheme).length).map
        (fun t => t.theme), lbl ∉ ([] : List String)) :=
  fallback_defaults_amended [] [] (by simp) (by simp)

/-- Unfolding equations of the explicit bias stage. -/
theorem explicitBiasesOf_cons_pos (lt : String) (hd : BiasEntry) (rest : List BiasEntry)
    (hc : (hd.keywords.filter (fun k => jsIncludes lt k)).length = 0) :
    explicitBiasesOf (hd :: rest) lt = explicitBiasesOf rest lt := by
  simp only [explicitBiasesOf, List.filterMap_cons, if_pos hc]

/-- Unfolding equation of the explicit bias stage, firing entry. -/
theorem explicitBiasesOf_cons_neg (lt : String) (hd : BiasEntry) (rest : List BiasEntry)
    (hc : ¬ (hd.keywords.filter (fun k => jsIncludes lt k)).length = 0) :
    explicitBiasesOf (hd :: rest) lt
      = { bias := hd.bias, evidence := "Keywords detected: " ++ joinSep ", " (hd.keywords.filter (fun k => jsIncludes lt k)), impact := hd.impact } :: explicitBiasesOf rest lt := by
  simp only [explicitBiasesOf, List.filterMap_cons, if_neg hc]

/-- Every finding of the explicit bias stage carries the label of some
table entry. -/
theorem mem_explicitBiasesOf_label (lt : String) :
    ∀ (tbl : List BiasEntry) (f : CognitiveBias), f ∈ explicitBiasesOf tbl lt →
      f.bias ∈ tbl.map (fun b => b.bias) := by
  intro tbl
  induction tbl with
  | nil =>
    intro f hf
    simp [explicitBiasesOf] at hf
  | cons b rest ih =>
    intro f hf
    simp only [explicitBiasesOf, List.filterMap_cons] at hf
    by_cases hc : (b.keywords.filter (fun k => jsIncludes lt k)).length = 0
    · rw [if_pos hc] at hf
      exact List.mem_cons_of_mem _ (ih f hf)
    · rw [if_neg hc] at hf
      rcases List.mem_cons.mp hf with rfl | hf2
      · simp
      · exact List.mem_cons_of_mem _ (ih f hf2)

/-- Over a table with pairwise-distinct labels, the explicit bias stage
emits a finding for an entry exactly when some keyword of that entry is a
substring of the lowercased document. -/
theorem explicitBiasesOf_any_label (lt : String) :
    ∀ tbl : List BiasEntry, ((tbl.map (fun b => b.bias)).Nodup) →
      ∀ b ∈ tbl,
        ((explicitBiasesOf tbl lt).any (fun f => decide (f.bias = b.bias)))
          = b.keywords.any (fun k => jsIncludes lt k) := by
  intro tbl
  induction tbl with
  | nil =>
    intro _ b hb
    simp at hb
  | cons hd rest ih =>
    intro hnd b hb
    rw [List.map_cons, List.nodup_cons] at hnd
    obtain ⟨hhd, hnd2⟩ := hnd
    rcases List.mem_cons.mp hb with rfl | hbr
    · by_cases hc : (b.keywords.filter (fun k => jsIncludes lt k)).length = 0
      · have hR : b.keywords.any (fun k => jsIncludes lt k) = false := by
          rw [List.any_eq_false]
          intro k hk
          have := List.filter_eq_nil_iff.mp (List.length_eq_zero.mp hc) k hk
          simpa using this
        have hL : ((explicitBiasesOf (b :: rest) lt).any
            (fun f => decide (f.bias = b.bias))) = false := by
          rw [List.any_eq_false]
          intro f hf
          simp only [explicitBiasesOf, List.filterMap_cons, if_pos hc] at hf
          have hmem := mem_explicitBiasesOf_label lt rest f hf
          intro hdec
          have hfb : f.bias = b.bias := of_decide_eq_true hdec
          rw [hfb] at hmem
          exact hhd hmem
        rw [hL, hR]
      · have hne : (b.keywords.filter (fun k => jsIncludes lt k)) ≠ [] := by
          intro hnil
          rw [hnil] at hc
          simp at hc
        have hR : b.keywords.any (fun k => jsIncludes lt k) = true := by
          rw [List.any_eq_true]
          obtain ⟨k, hk⟩ := List.exists_mem_of_ne_nil _ hne
          exact ⟨k, List.mem_of_mem_filter hk, List.of_mem_filter hk⟩
        rw [hR]
        simp only [explicitBiasesOf, List.filterMap_cons, if_neg hc]
        simp
    · by_cases hc : (hd.keywords.filter (fun k => jsIncludes lt k)).length = 0
      · rw [explicitBiasesOf_cons_pos lt hd rest hc]
        exact ih hnd2 b hbr
      · rw [explicitBiasesOf_cons_neg lt hd rest hc, List.any_cons]
        have hne : hd.bias ≠ b.bias := by
          intro heq
          rw [heq] at hhd
          exact hhd (List.mem_map.mpr ⟨b, hbr, rfl⟩)
        have hproj : (decide (({ bias := hd.bias, evidence := "Keywords detected: " ++ joinSep ", " (hd.keywords.filter (fun k => jsIncludes lt k)), impact := hd.impact } : CognitiveBias).bias = b.bias)) = false := by
          simp [hne]
        rw [hproj, Bool.false_or]
        exact ih hnd2 b hbr

set_option maxHeartbeats 1000000 in
/-- C10: the explicit cognitive-bias stage is a function of the whole
lowercased raw text only: an entry of the table fires exactly when one of
its keywords is a substring of the lowercased raw input, independently of
the segmented sentences.  In particular the input "always!" segments into
zero sentences, yet its Report carries a non-empty cognitive_biases list
while pain_points and emotional_patterns are empty. -/
theorem bias_stage_text_level :
    (∀ (text : String) (b : BiasEntry), b ∈ BIAS_PATTERNS →
      ((explicitBiases (lowerStr text)).any (fun f => decide (f.bias = b.bias)))
        = b.keywords.any (fun k => jsIncludes (lowerStr text) k)) ∧
    ((analyzeUserFeedback "always!").cognitive_biases ≠ []) ∧
    ((analyzeUserFeedback "always!").pain_points = []) ∧
    ((analyzeUserFeedback "always!").emotional_patterns = []) := by
  refine ⟨?_, by decide, by decide, by decide⟩
  intro text b hb
  exact explicitBiasesOf_any_label (lowerStr text) BIAS_PATTERNS (by decide) b hb

/-- C10 witness: the text-level clause at the Frequency Illusion entry and
the input "always!". -/
theorem bias_stage_text_level_witness :
    ((explicitBiases (lowerStr "always!")).any
        (fun f => decide (f.bias = ("Frequency Illusion" : String))))
      = (["always", "never", "every time", "constantly", "without fail"] : List String).any
          (fun k => jsIncludes (lowerStr "always!") k) :=
  bias_stage_text_level.1 "always!"
    ⟨["always", "never", "every time", "constantly", "without fail"],
      "Frequency Illusion", "Users may overstate issue frequency"⟩ (by decide)
